import Mathlib

/-!
Verification of the matbench-discovery leaderboard core.

The repository ships a generated schema declaration
(src/site/src/lib/model-schema.d.ts) and a test suite for the landing page.
The data model below is embedded from that schema declaration; the pure
operations (compliance filter, discovery-set selector, best-model resolver,
column-visibility state) are not present in the repository sources, only
their tests and the specification, so they are modelled from the spec.
-/

namespace MBD

/-- A JSON number as the metric fields carry it: either a finite value
(embedded as a rational) or a non-finite value (NaN or an infinity).
The spec's invariants and the resolver distinguish exactly finite from
non-finite, never which non-finite value occurred. -/
inductive MetricVal where
  | num (q : ℚ)
  | nonFinite
deriving DecidableEq, Repr

/-- Sentinel strings admitted for the phonons and geo_opt metric fields in
model-schema.d.ts: the literals "not applicable" and "not available". -/
inductive SentinelStr where
  | not_applicable
  | not_available
deriving DecidableEq, Repr

/-- Phonons metric bundle from model-schema.d.ts: one optional number
κ_SRME (spelled kappa_SRME here). -/
structure PhononsBundle where
  kappa_SRME : Option MetricVal := none
deriving DecidableEq, Repr

/-- The phonons field of metrics in model-schema.d.ts: either a bundle or a
sentinel string, as a tagged union. -/
inductive PhononsField where
  | measured (b : PhononsBundle)
  | sentinel (s : SentinelStr)
deriving DecidableEq, Repr

/-- Geometry-optimisation metric bundle from model-schema.d.ts; pred_file
and pred_col are nullable strings (none embeds null). -/
structure GeoOptBundle where
  pred_file : Option String := none
  pred_col : Option String := none
  rmsd : Option MetricVal := none
  n_sym_ops_mae : Option MetricVal := none
  symmetry_decrease : Option MetricVal := none
  symmetry_match : Option MetricVal := none
  symmetry_increase : Option MetricVal := none
  n_structures : Option MetricVal := none
deriving DecidableEq, Repr

/-- The geo_opt field of metrics in model-schema.d.ts: bundle or sentinel. -/
inductive GeoOptField where
  | measured (b : GeoOptBundle)
  | sentinel (s : SentinelStr)
deriving DecidableEq, Repr

/-- One discovery-set metric bundle, with every field of the
full_test_set / most_stable_10k / unique_prototypes objects in
model-schema.d.ts (all optional). -/
structure MetricBundle where
  F1 : Option MetricVal := none
  DAF : Option MetricVal := none
  Precision : Option MetricVal := none
  Recall : Option MetricVal := none
  Accuracy : Option MetricVal := none
  TPR : Option MetricVal := none
  FPR : Option MetricVal := none
  TNR : Option MetricVal := none
  FNR : Option MetricVal := none
  TP : Option MetricVal := none
  FP : Option MetricVal := none
  TN : Option MetricVal := none
  FN : Option MetricVal := none
  MAE : Option MetricVal := none
  RMSE : Option MetricVal := none
  R2 : Option MetricVal := none
  missing_preds : Option MetricVal := none
  missing_percent : Option String := none
deriving DecidableEq, Repr

/-- The discovery object of metrics in model-schema.d.ts. Besides the three
discovery-set bundles it declares optional pred_file and pred_col strings;
its additionalProperties member has type never, so no further key can carry
a value. -/
structure Discovery where
  pred_file : Option String := none
  pred_col : Option String := none
  full_test_set : Option MetricBundle := none
  most_stable_10k : Option MetricBundle := none
  unique_prototypes : Option MetricBundle := none
deriving DecidableEq, Repr

/-- The metrics object of model-schema.d.ts. -/
structure Metrics where
  phonons : Option PhononsField := none
  geo_opt : Option GeoOptField := none
  discovery : Option Discovery := none
deriving DecidableEq, Repr

/-- Author entry from model-schema.d.ts; the open residual keys
([k: string]: unknown) are read by no component and are not embedded. -/
structure Author where
  name : String
  affiliation : Option String := none
  email : Option String := none
  orcid : Option String := none
deriving DecidableEq, Repr

/-- trained_by entry from model-schema.d.ts (no email, optional github);
open residual keys are not embedded. -/
structure TrainedBy where
  name : String
  affiliation : Option String := none
  orcid : Option String := none
  github : Option String := none
deriving DecidableEq, Repr

/-- Training-set vocabulary of model-schema.d.ts (nine values; spaces in
the source literals become underscores). -/
inductive TrainingSet where
  | MP_2022
  | MPtrj
  | MPF
  | MP_Graphs
  | GNoME
  | MatterSim
  | Alex
  | OMat24
  | sAlex
deriving DecidableEq, Repr

/-- train_task vocabulary of model-schema.d.ts (seven codes). -/
inductive TrainTask where
  | RP2RE
  | RS2RE
  | S2E
  | S2RE
  | S2EF
  | S2EFS
  | S2EFSM
deriving DecidableEq, Repr

/-- test_task vocabulary of model-schema.d.ts (five codes; hyphens in the
source literals become underscores). -/
inductive TestTask where
  | IP2E
  | IS2E
  | IS2RE
  | IS2RE_SR
  | IS2RE_BO
deriving DecidableEq, Repr

/-- model_type vocabulary of model-schema.d.ts (six codes). -/
inductive ModelType where
  | GNN
  | UIP
  | BO_GNN
  | Fingerprint
  | Transformer
  | RF
deriving DecidableEq, Repr

/-- targets vocabulary of model-schema.d.ts (seven codes). -/
inductive Targets where
  | E
  | EF_G
  | EF_D
  | EFS_G
  | EFS_D
  | EFS_GM
  | EFS_DM
deriving DecidableEq, Repr

/-- openness vocabulary of model-schema.d.ts (four codes). -/
inductive Openness where
  | OSOD
  | OSCD
  | CSOD
  | CSCD
deriving DecidableEq, Repr

/-- status vocabulary of model-schema.d.ts. -/
inductive Status where
  | aborted
  | complete
deriving DecidableEq, Repr

/-- Hyperparameter object of model-schema.d.ts (all fields optional); open
residual keys are not embedded. -/
structure Hyperparams where
  max_force : Option MetricVal := none
  max_steps : Option MetricVal := none
  optimizer : Option String := none
  ase_optimizer : Option String := none
  learning_rate : Option MetricVal := none
  batch_size : Option MetricVal := none
  epochs : Option MetricVal := none
  n_layers : Option MetricVal := none
  radial_cutoff : Option MetricVal := none
deriving DecidableEq, Repr

/-- Notes object of model-schema.d.ts; MissingPreds embeds the source key
"Missing Preds", html_keys the key set of the open html sub-object. -/
structure Notes where
  Description : Option String := none
  Training : Option String := none
  MissingPreds : Option String := none
  html_keys : List String := []
deriving DecidableEq, Repr

/-- A validated model record, with every top-level field of the
ModelMetadata interface in model-schema.d.ts. Fields without a question
mark there are required here; optional fields are Option-typed. The
requirements mapping is embedded as an association list. -/
structure ModelRecord where
  model_name : String
  model_key : Option String := none
  model_version : String
  matbench_discovery_version : String
  date_added : String
  date_published : String
  authors : List Author
  trained_by : Option (List TrainedBy) := none
  repo : String
  doi : String
  paper : String
  url : Option String := none
  pypi : Option String := none
  requirements : List (String × String)
  trained_for_benchmark : Bool
  training_set : List TrainingSet
  hyperparams : Option Hyperparams := none
  notes : Option Notes := none
  model_params : Nat
  n_estimators : Nat
  train_task : TrainTask
  test_task : TestTask
  model_type : ModelType
  targets : Targets
  openness : Option Openness := none
  status : Option Status := none
  metrics : Option Metrics := none
deriving DecidableEq, Repr

/-- The three discovery-set names. -/
inductive DiscoverySet where
  | full_test_set
  | unique_prototypes
  | most_stable_10k
deriving DecidableEq, Repr

/-- Modelled from the spec: section 4.2 Compliance Filter, whose
implementation is absent from the repository sources. A record is
compliant iff trained_for_benchmark is true and status is not aborted; a
record with no status field is compliant. -/
def is_compliant (r : ModelRecord) : Bool :=
  r.trained_for_benchmark && decide (r.status ≠ some Status.aborted)

/-- Modelled from the spec: section 4.2 filter_records, whose
implementation is absent from the repository sources. With the flag true
all records pass unchanged; with the flag false only compliant records
pass, in the original relative order. -/
def filter_records (records : List ModelRecord) (include_non_compliant : Bool) :
    List ModelRecord :=
  if include_non_compliant then records else records.filter is_compliant

/-- Modelled from the spec: section 4.3 Discovery-Set Selector projection,
whose implementation is absent from the repository sources. Returns
record.metrics.discovery[set_name] when that path exists, none otherwise. -/
def project (r : ModelRecord) (s : DiscoverySet) : Option MetricBundle :=
  match r.metrics with
  | none => none
  | some m =>
    match m.discovery with
    | none => none
    | some d =>
      match s with
      | DiscoverySet.full_test_set => d.full_test_set
      | DiscoverySet.unique_prototypes => d.unique_prototypes
      | DiscoverySet.most_stable_10k => d.most_stable_10k

/-- Modelled from the spec: section 4.3, selector state. The selector
holds the single currently-active set name; the default is
unique_prototypes. -/
def initialDiscoverySet : DiscoverySet := DiscoverySet.unique_prototypes

/-- Modelled from the spec: section 4.3, the only transition of the
three-state selector machine: an explicit user selection immediately
replaces the active set with the selected one. -/
def selectDiscoverySet (_current selected : DiscoverySet) : DiscoverySet :=
  selected

/-- Modelled from the spec: a set name is active exactly when it is the
selector state. -/
def isActive (state name : DiscoverySet) : Bool :=
  decide (state = name)

/-- The outcome of the best-model resolver: the winning record together
with its finite F1 value and its (possibly absent) DAF field. -/
structure BestResult where
  record : ModelRecord
  F1 : ℚ
  DAF : Option MetricVal
deriving DecidableEq, Repr

/-- Modelled from the spec: section 4.4, the contribution of one projected
bundle: usable exactly when its F1 is present and finite, carrying that F1
and the bundle's DAF. -/
def candidateOfBundle (r : ModelRecord) (b : MetricBundle) : Option BestResult :=
  match b.F1 with
  | some (MetricVal.num q) => some ⟨r, q, b.DAF⟩
  | _ => none

/-- Modelled from the spec: section 4.4, the usable projection of one
record for one discovery set. A record contributes a candidate exactly
when its projection exists and that bundle's F1 is present and finite; the
candidate carries that F1 and the bundle's DAF. -/
def candidate (r : ModelRecord) (s : DiscoverySet) : Option BestResult :=
  match project r s with
  | none => none
  | some b => candidateOfBundle r b

/-- The ordered list of usable candidates of a record sequence for one
discovery set. -/
def candidates (records : List ModelRecord) (s : DiscoverySet) : List BestResult :=
  records.filterMap (fun r => candidate r s)

/-- Modelled from the spec: section 4.4, the maximum pass of the resolver.
The accumulator is replaced only on a strictly larger F1, so ties are
broken by first occurrence in the input order. -/
def pickBest : Option BestResult → List BestResult → Option BestResult
  | acc, [] => acc
  | none, c :: cs => pickBest (some c) cs
  | some b, c :: cs => pickBest (some (if b.F1 < c.F1 then c else b)) cs

/-- Modelled from the spec: section 4.4 resolve_best, whose implementation
is absent from the repository sources. Projects every record onto the set
name, discards records with an absent projection or an absent or
non-finite F1, and returns the first record attaining the maximal F1,
with its F1 and DAF; with no usable candidate it returns none. -/
def resolve_best (records : List ModelRecord) (s : DiscoverySet) : Option BestResult :=
  pickBest none (candidates records s)

/-- Modelled from the spec: section 4.5 Column Visibility State, whose
implementation is absent from the repository sources: a mapping from
column identifier to boolean visibility, held as an association list of
explicitly set entries. -/
def ColumnVisibility : Type := List (String × Bool)

/-- Modelled from the spec: the session-start visibility state, with no
column explicitly set. -/
def initColumnVisibility : ColumnVisibility := []

/-- Lookup of the most recent explicit entry for a column. -/
def lookupVis : ColumnVisibility → String → Option Bool
  | [], _ => none
  | (k, v) :: rest, col => if col = k then some v else lookupVis rest col

/-- Modelled from the spec: is_visible returns the current value for the
column, defaulting to true for a column never explicitly set. -/
def is_visible (state : ColumnVisibility) (col : String) : Bool :=
  match lookupVis state col with
  | some b => b
  | none => true

/-- Modelled from the spec: toggle flips the current visibility of the
column, recording the new value as the most recent entry. -/
def toggle (state : ColumnVisibility) (col : String) : ColumnVisibility :=
  (col, !(is_visible state col)) :: state

/-- A sequence of user toggles applied from the session-start state. -/
def applyToggles (cols : List String) : ColumnVisibility :=
  cols.foldl toggle initColumnVisibility

/-- Unfolding a successful bundle contribution: the candidate carries the
record itself, the bundle's finite F1 value and the bundle's DAF field. -/
theorem candidateOfBundle_some (r : ModelRecord) (b : MetricBundle) (c : BestResult)
    (h : candidateOfBundle r b = some c) :
    c.record = r ∧ b.F1 = some (MetricVal.num c.F1) ∧ c.DAF = b.DAF := by
  unfold candidateOfBundle at h
  cases hF : b.F1 with
  | none => rw [hF] at h; cases h
  | some v =>
    cases v with
    | num q =>
      rw [hF] at h
      injection h with h
      subst h
      exact ⟨rfl, rfl, rfl⟩
    | nonFinite => rw [hF] at h; cases h

/-- Unfolding a successful candidate: the candidate carries its own record,
and its F1 and DAF are exactly the projected bundle's finite F1 value and
DAF field. -/
theorem candidate_some_iff (r : ModelRecord) (s : DiscoverySet) (c : BestResult)
    (h : candidate r s = some c) :
    c.record = r ∧ ∃ b, project r s = some b ∧
      b.F1 = some (MetricVal.num c.F1) ∧ c.DAF = b.DAF := by
  unfold candidate at h
  cases hp : project r s with
  | none => rw [hp] at h; cases h
  | some b =>
    rw [hp] at h
    have h2 : candidateOfBundle r b = some c := h
    obtain ⟨h1, h3, h4⟩ := candidateOfBundle_some r b c h2
    exact ⟨h1, b, rfl, h3, h4⟩

/-- When the accumulator is already occupied, pickBest returns the first
element of accumulator-then-list attaining the maximal F1: everything
strictly before the result is strictly below it, everything after is at
most it. -/
theorem pickBest_acc_spec (cs : List BestResult) :
    ∀ b res : BestResult, pickBest (some b) cs = some res →
      ∃ l1 l2, b :: cs = l1 ++ res :: l2 ∧ (∀ c ∈ l1, c.F1 < res.F1) ∧
        ∀ c ∈ l2, c.F1 ≤ res.F1 := by
  induction cs with
  | nil =>
    intro b res h
    injection h with h
    subst h
    exact ⟨[], [], rfl, by simp, by simp⟩
  | cons c cs ih =>
    intro b res h
    by_cases hbc : b.F1 < c.F1
    · have h2 : pickBest (some c) cs = some res := by
        simpa [pickBest, if_pos hbc] using h
      obtain ⟨l1, l2, hdec, hlt, hle⟩ := ih c res h2
      have hcres : c.F1 ≤ res.F1 := by
        cases l1 with
        | nil =>
          simp only [List.nil_append] at hdec
          injection hdec with h1 h2'
          rw [h1]
        | cons a t =>
          simp only [List.cons_append] at hdec
          injection hdec with h1 h2'
          rw [h1]
          exact le_of_lt (hlt a (List.mem_cons_self a t))
      refine ⟨b :: l1, l2, ?_, ?_, hle⟩
      · rw [List.cons_append, ← hdec]
      · intro x hx
        rcases List.mem_cons.mp hx with rfl | hx2
        · exact lt_of_lt_of_le hbc hcres
        · exact hlt x hx2
    · have h2 : pickBest (some b) cs = some res := by
        simpa [pickBest, if_neg hbc] using h
      push_neg at hbc
      obtain ⟨l1, l2, hdec, hlt, hle⟩ := ih b res h2
      cases l1 with
      | nil =>
        simp only [List.nil_append] at hdec
        injection hdec with h1 h2'
        refine ⟨[], c :: cs, ?_, by simp, ?_⟩
        · rw [List.nil_append, ← h1]
        · intro x hx
          rcases List.mem_cons.mp hx with rfl | hx2
          · rw [← h1]; exact hbc
          · rw [h2'] at hx2
            exact hle x hx2
      | cons a t =>
        simp only [List.cons_append] at hdec
        injection hdec with h1 h2'
        have hbres : b.F1 < res.F1 := by
          rw [h1]
          exact hlt a (List.mem_cons_self a t)
        refine ⟨b :: c :: t, l2, ?_, ?_, hle⟩
        · simp [h2']
        · intro x hx
          rcases List.mem_cons.mp hx with rfl | hx2
          · exact hbres
          · rcases List.mem_cons.mp hx2 with rfl | hx3
            · exact lt_of_le_of_lt hbc hbres
            · exact hlt x (List.mem_cons_of_mem a hx3)

/-- Starting from an empty accumulator, pickBest returns the first element
of the list attaining the maximal F1. -/
theorem pickBest_none_spec (cs : List BestResult) (res : BestResult)
    (h : pickBest none cs = some res) :
    ∃ l1 l2, cs = l1 ++ res :: l2 ∧ (∀ c ∈ l1, c.F1 < res.F1) ∧
      ∀ c ∈ l2, c.F1 ≤ res.F1 := by
  cases cs with
  | nil => exact absurd h (by simp [pickBest])
  | cons c cs =>
    have h2 : pickBest (some c) cs = some res := h
    exact pickBest_acc_spec cs c res h2

/-- The result of pickBest is an element of the list. -/
theorem pickBest_mem (cs : List BestResult) (res : BestResult)
    (h : pickBest none cs = some res) : res ∈ cs := by
  obtain ⟨l1, l2, hdec, -, -⟩ := pickBest_none_spec cs res h
  rw [hdec]
  exact List.mem_append.mpr (Or.inr (List.mem_cons_self res l2))

/-- The result of pickBest attains the maximal F1 of the list. -/
theorem pickBest_isMax (cs : List BestResult) (res : BestResult)
    (h : pickBest none cs = some res) : ∀ c ∈ cs, c.F1 ≤ res.F1 := by
  obtain ⟨l1, l2, hdec, hlt, hle⟩ := pickBest_none_spec cs res h
  intro x hx
  rw [hdec] at hx
  rcases List.mem_append.mp hx with hx1 | hx2
  · exact le_of_lt (hlt x hx1)
  · rcases List.mem_cons.mp hx2 with rfl | hx3
    · exact le_refl _
    · exact hle x hx3

/-- Membership in the candidate list comes from a record of the input. -/
theorem candidates_mem (records : List ModelRecord) (s : DiscoverySet)
    (c : BestResult) (h : c ∈ candidates records s) :
    ∃ r ∈ records, candidate r s = some c := by
  simpa using List.mem_filterMap.mp h

/-- Primitive kind of a JSON value, used to state the required-field
checks of the schema declaration over raw records. -/
inductive FieldKind where
  | str
  | num
  | boolean
  | arr
  | obj
deriving DecidableEq, Repr

/-- The top-level fields the ModelMetadata interface of model-schema.d.ts
declares required (no question mark), each with the primitive kind of its
declared value. -/
def requiredMetadataFieldKinds : List (String × FieldKind) :=
  [("model_name", FieldKind.str),
   ("model_version", FieldKind.str),
   ("matbench_discovery_version", FieldKind.str),
   ("date_added", FieldKind.str),
   ("date_published", FieldKind.str),
   ("authors", FieldKind.arr),
   ("repo", FieldKind.str),
   ("doi", FieldKind.str),
   ("paper", FieldKind.str),
   ("requirements", FieldKind.obj),
   ("trained_for_benchmark", FieldKind.boolean),
   ("training_set", FieldKind.arr),
   ("model_params", FieldKind.num),
   ("n_estimators", FieldKind.num),
   ("train_task", FieldKind.str),
   ("test_task", FieldKind.str),
   ("model_type", FieldKind.str),
   ("targets", FieldKind.str)]

/-- The optional top-level fields of the ModelMetadata interface (marked
with a question mark in model-schema.d.ts). -/
def optionalMetadataFields : List String :=
  ["model_key", "trained_by", "url", "pypi", "hyperparams", "notes",
   "openness", "status", "metrics"]

/-- Presence of a field with a given kind in a raw record abstracted to
its top-level (field name, value kind) pairs. -/
def hasField : List (String × FieldKind) → String × FieldKind → Bool
  | [], _ => false
  | e :: rest, fk => if e = fk then true else hasField rest fk

/-- Modelled from the spec: section 4.1, the required-field part of the
validator; the generic JSON-schema checker is not part of the repository
sources, while the field list itself comes from model-schema.d.ts. A raw
record passes only when every required field is present with its declared
kind. -/
def validateRequired (record : List (String × FieldKind)) : Bool :=
  requiredMetadataFieldKinds.all (fun fk => hasField record fk)

/-- Keys the discovery object of model-schema.d.ts declares: pred_file,
pred_col and the three discovery-set bundles; its additionalProperties
member has type never, closing the key set at these five. -/
def discoveryAllowedKeys : List String :=
  ["pred_file", "pred_col", "full_test_set", "most_stable_10k",
   "unique_prototypes"]

/-- Modelled from the spec: section 4.1, the closed-key check of the
validator on a raw discovery object; the generic JSON-schema checker is
not part of the repository sources, while the key set itself comes from
model-schema.d.ts. The keys pass only when each one is declared. -/
def validDiscoveryKeys (keys : List String) : Bool :=
  keys.all (fun k => decide (k ∈ discoveryAllowedKeys))

/-- hasField decides membership of the (name, kind) pair in the raw
record. -/
theorem hasField_iff_mem (record : List (String × FieldKind))
    (fk : String × FieldKind) : hasField record fk = true ↔ fk ∈ record := by
  induction record with
  | nil => simp [hasField]
  | cons e rest ih =>
    by_cases he : e = fk
    · simp [hasField, he]
    · simp only [hasField, if_neg he, ih, List.mem_cons]
      refine ⟨fun h => Or.inr h, ?_⟩
      rintro (rfl | h)
      · exact absurd rfl he
      · exact h

/-- A raw record passing the required-field check contains every required
(name, kind) pair. -/
theorem validateRequired_mem (record : List (String × FieldKind))
    (fk : String × FieldKind) (hfk : fk ∈ requiredMetadataFieldKinds)
    (hv : validateRequired record = true) : fk ∈ record := by
  have h2 := List.all_eq_true.mp hv fk hfk
  exact (hasField_iff_mem record fk).mp h2

/-- Toggling a column flips exactly that column's visibility. -/
theorem is_visible_toggle_self (state : ColumnVisibility) (col : String) :
    is_visible (toggle state col) col = !(is_visible state col) := by
  simp [toggle, is_visible, lookupVis]

/-- Toggling a column leaves every other column's visibility unchanged. -/
theorem is_visible_toggle_other (state : ColumnVisibility) (col c : String)
    (h : c ≠ col) : is_visible (toggle state col) c = is_visible state c := by
  simp [toggle, is_visible, lookupVis, if_neg h]

/-- A sequence of toggles of other columns never changes the visibility of
a column outside the sequence. -/
theorem is_visible_foldl_not_mem (cols : List String) :
    ∀ (state : ColumnVisibility) (col : String), col ∉ cols →
      is_visible (cols.foldl toggle state) col = is_visible state col := by
  induction cols with
  | nil => intro state col _; rfl
  | cons c cs ih =>
    intro state col h
    rw [List.foldl_cons]
    rw [ih (toggle state c) col (fun hm => h (List.mem_cons_of_mem c hm))]
    exact is_visible_toggle_other state c col
      (fun he => h (by rw [he]; exact List.mem_cons_self c cs))

/-- A fully specified compliant record used as the base of the concrete
examples; its metric-free shape satisfies every required field of the
schema. -/
def baseRecord : ModelRecord where
  model_name := "base-model"
  model_version := "1.0.0"
  matbench_discovery_version := "1.3.1"
  date_added := "2024-01-01"
  date_published := "2024-01-01"
  authors := [⟨"Ada", none, none, none⟩]
  repo := "https://example.org/repo"
  doi := "10.0000/example"
  paper := "https://example.org/paper"
  requirements := [("torch", "2.0.0")]
  trained_for_benchmark := true
  training_set := [TrainingSet.MPtrj]
  model_params := 1000
  n_estimators := 1
  train_task := TrainTask.S2EF
  test_task := TestTask.IS2RE
  model_type := ModelType.UIP
  targets := Targets.EF_G

/-- A metric bundle with a given finite F1 and a given finite DAF. -/
def bundleF1DAF (f d : ℚ) : MetricBundle :=
  { F1 := some (MetricVal.num f), DAF := some (MetricVal.num d) }

/-- A metric bundle with a given finite F1 and no DAF. -/
def bundleF1 (f : ℚ) : MetricBundle :=
  { F1 := some (MetricVal.num f) }

/-- A metrics object holding only the given discovery object. -/
def metricsOfDiscovery (d : Discovery) : Metrics :=
  { discovery := some d }

/-- A record whose unique_prototypes bundle has F1 = 0.6 and DAF = 2 and
whose full_test_set bundle has F1 = 0.5 and DAF = 3. -/
def recLow : ModelRecord :=
  { baseRecord with
    model_name := "low-model"
    metrics := some (metricsOfDiscovery
      { unique_prototypes := some (bundleF1DAF (mkRat 3 5) 2)
        full_test_set := some (bundleF1DAF (mkRat 1 2) 3) }) }

/-- A record whose unique_prototypes bundle has F1 = 0.82 with an absent
DAF, and no full_test_set bundle. -/
def recHigh : ModelRecord :=
  { baseRecord with
    model_name := "high-model"
    metrics := some (metricsOfDiscovery
      { unique_prototypes := some (bundleF1 (mkRat 41 50)) }) }

/-- An aborted record that is not compliant. -/
def recAborted : ModelRecord :=
  { baseRecord with
    model_name := "aborted-model"
    status := some Status.aborted }

/-- A record with no metrics at all. -/
def recNoMetrics : ModelRecord :=
  { baseRecord with model_name := "bare-model" }

/-- A record whose unique_prototypes bundle carries the finite but
out-of-range value F1 = 1.5. -/
def recOutOfRange : ModelRecord :=
  { baseRecord with
    model_name := "out-of-range-model"
    metrics := some (metricsOfDiscovery
      { unique_prototypes := some (bundleF1 (mkRat 3 2)) }) }

/-- A record whose unique_prototypes bundle sits exactly on the boundary
values F1 = 1 and DAF = 10. -/
def recEdge : ModelRecord :=
  { baseRecord with
    model_name := "edge-model"
    metrics := some (metricsOfDiscovery
      { unique_prototypes := some (bundleF1DAF 1 10) }) }

/-- C1, counterexample: a valid record whose unique_prototypes F1 is the
finite value 1.5 is returned by resolve_best with that F1, which does not
lie in [0, 1]: the resolver compares out-of-range values without clamping,
so the unconditional range clause of the claim fails. -/
theorem resolve_best_f1_out_of_range :
    (resolve_best [recOutOfRange] DiscoverySet.unique_prototypes).map
      (fun res => res.F1) = some (mkRat 3 2) ∧ ¬(mkRat 3 2 ≤ 1) := by
  constructor
  · rfl
  · decide

/-- C1, amended: resolve_best returns the first-occurring record among
those with a defined projection and a present finite F1 that attains the
maximal such F1, together with that F1 and the record's possibly absent
DAF; the returned F1 equals the maximum usable F1, and lies in [0, 1]
whenever every usable F1 of the input does. -/
theorem resolve_best_correct (records : List ModelRecord) (s : DiscoverySet)
    (res : BestResult) (h : resolve_best records s = some res) :
    (∃ r ∈ records, candidate r s = some res) ∧
    (∃ b, project res.record s = some b ∧
      b.F1 = some (MetricVal.num res.F1) ∧ res.DAF = b.DAF) ∧
    (∀ c ∈ candidates records s, c.F1 ≤ res.F1) ∧
    (∃ l1 l2, candidates records s = l1 ++ res :: l2 ∧
      ∀ c ∈ l1, c.F1 < res.F1) ∧
    ((∀ c ∈ candidates records s, 0 ≤ c.F1 ∧ c.F1 ≤ 1) →
      0 ≤ res.F1 ∧ res.F1 ≤ 1) := by
  have hmem : res ∈ candidates records s := pickBest_mem _ res h
  have hmax : ∀ c ∈ candidates records s, c.F1 ≤ res.F1 :=
    pickBest_isMax _ res h
  obtain ⟨r, hr, hcand⟩ := candidates_mem records s res hmem
  obtain ⟨hrec, b, hb, hF, hDAF⟩ := candidate_some_iff r s res hcand
  obtain ⟨l1, l2, hdec, hlt, _⟩ := pickBest_none_spec _ res h
  refine ⟨⟨r, hr, hcand⟩, ⟨b, ?_, hF, hDAF⟩, hmax, ⟨l1, l2, hdec, hlt⟩, ?_⟩
  · rw [hrec]; exact hb
  · intro hrange
    exact hrange res hmem

/-- Witness for resolve_best_correct: on two concrete records the resolver
picks the one with the larger F1 (0.82 over 0.6) and an absent DAF. -/
theorem resolve_best_correct_witness :
    ∃ r ∈ [recLow, recHigh], candidate r DiscoverySet.unique_prototypes =
      some ⟨recHigh, mkRat 41 50, none⟩ :=
  (resolve_best_correct [recLow, recHigh] DiscoverySet.unique_prototypes
    ⟨recHigh, mkRat 41 50, none⟩ (by decide)).1

/-- C2: is_compliant returns true iff trained_for_benchmark is true and
status is not aborted (an absent status counts as compliant), and the
result depends only on those two fields, never on metrics. -/
theorem is_compliant_spec (r r1 r2 : ModelRecord)
    (h1 : r1.trained_for_benchmark = r2.trained_for_benchmark)
    (h2 : r1.status = r2.status) :
    (is_compliant r = true ↔
      (r.trained_for_benchmark = true ∧ r.status ≠ some Status.aborted)) ∧
    is_compliant r1 = is_compliant r2 := by
  constructor
  · simp [is_compliant]
  · simp [is_compliant, h1, h2]

/-- Witness for is_compliant_spec: the aborted record decides the
equivalence, and two records differing only in metrics agree. -/
theorem is_compliant_spec_witness :
    (is_compliant recAborted = true ↔
      (recAborted.trained_for_benchmark = true ∧
        recAborted.status ≠ some Status.aborted)) ∧
    is_compliant recLow = is_compliant recHigh :=
  is_compliant_spec recAborted recLow recHigh rfl rfl

/-- C3: for every record sequence, filter_records with flag true returns
all records unchanged; with flag false it keeps exactly the compliant
records (every kept record is compliant and every compliant record of the
input is kept) as an order-preserving subsequence of the true case, of
length at most that of the true case. -/
theorem filter_records_spec (records : List ModelRecord) :
    filter_records records true = records ∧
    (filter_records records false).Sublist (filter_records records true) ∧
    (filter_records records false).length ≤
      (filter_records records true).length ∧
    (∀ x ∈ filter_records records false, is_compliant x = true) ∧
    ∀ r ∈ records, is_compliant r = true → r ∈ filter_records records false := by
  refine ⟨rfl, ?_, ?_, ?_, ?_⟩
  · exact List.filter_sublist records
  · exact (List.filter_sublist records).length_le
  · intro x hx
    simp only [filter_records, if_neg Bool.false_ne_true, List.mem_filter] at hx
    exact hx.2
  · intro r hr hc
    simp [filter_records, List.mem_filter, hr, hc]

/-- Witness for filter_records_spec: with an aborted and a compliant
record the compliant one survives the false case, and the true case keeps
both; the inner hypotheses of the completeness conjunct are discharged at
the compliant record. -/
theorem filter_records_spec_witness :
    recLow ∈ filter_records [recAborted, recLow] false ∧
    filter_records [recAborted, recLow] true = [recAborted, recLow] ∧
    filter_records [] true = ([] : List ModelRecord) :=
  ⟨(filter_records_spec [recAborted, recLow]).2.2.2.2 recLow
      (List.mem_cons_of_mem recAborted (List.mem_cons_self recLow []))
      (by decide),
    (filter_records_spec [recAborted, recLow]).1,
    (filter_records_spec []).1⟩

/-- C4, counterexample: the discovery object of the schema accepts the key
pred_file, which is not one of the three discovery-set names, so an extra
key inside discovery does not always fail validation. -/
theorem discovery_pred_file_key_accepted :
    validDiscoveryKeys ["pred_file"] = true ∧
    "pred_file" ∉ ["full_test_set", "unique_prototypes", "most_stable_10k"] := by
  constructor
  · rfl
  · decide

/-- C4, amended: inside discovery the validator accepts exactly the five
declared keys pred_file, pred_col, full_test_set, most_stable_10k and
unique_prototypes; a raw discovery object containing a key outside these
five fails the key check, and the three discovery-set names are among the
accepted keys. -/
theorem discovery_keys_closed (keys : List String) (k : String)
    (hk : k ∈ keys) (hna : k ∉ discoveryAllowedKeys) :
    validDiscoveryKeys keys = false ∧
    "full_test_set" ∈ discoveryAllowedKeys ∧
    "unique_prototypes" ∈ discoveryAllowedKeys ∧
    "most_stable_10k" ∈ discoveryAllowedKeys := by
  refine ⟨?_, by decide, by decide, by decide⟩
  cases hv : validDiscoveryKeys keys with
  | false => rfl
  | true =>
    have h2 := List.all_eq_true.mp hv k hk
    exact absurd (of_decide_eq_true h2) hna

/-- Witness for discovery_keys_closed: a discovery object with the
undeclared key surprise_key fails the key check. -/
theorem discovery_keys_closed_witness :
    validDiscoveryKeys ["full_test_set", "surprise_key"] = false ∧
    "full_test_set" ∈ discoveryAllowedKeys ∧
    "unique_prototypes" ∈ discoveryAllowedKeys ∧
    "most_stable_10k" ∈ discoveryAllowedKeys :=
  discovery_keys_closed ["full_test_set", "surprise_key"] "surprise_key"
    (by decide) (by decide)

/-- C5: the discovery-set selector is a three-state machine over the three
set names whose initial state is unique_prototypes; in every state exactly
one of the three names is active, and a user selection immediately
replaces the active set with the selected one. -/
theorem discovery_selector_machine (state sel : DiscoverySet) :
    initialDiscoverySet = DiscoverySet.unique_prototypes ∧
    ([DiscoverySet.full_test_set, DiscoverySet.unique_prototypes,
      DiscoverySet.most_stable_10k].countP (fun n => isActive state n)) = 1 ∧
    selectDiscoverySet state sel = sel ∧
    isActive (selectDiscoverySet state sel) sel = true := by
  refine ⟨rfl, ?_, rfl, by simp [selectDiscoverySet, isActive]⟩
  cases state <;> rfl

/-- C6: toggling a column twice restores every column's visibility (the
toggled column and all others), and a column never explicitly set or
toggled is visible. -/
theorem column_visibility_toggle (state : ColumnVisibility) (col c : String)
    (cols : List String) (h : col ∉ cols) :
    is_visible (toggle (toggle state col) col) c = is_visible state c ∧
    is_visible (applyToggles cols) col = true := by
  constructor
  · by_cases hc : c = col
    · subst hc
      rw [is_visible_toggle_self, is_visible_toggle_self, Bool.not_not]
    · rw [is_visible_toggle_other _ _ _ hc, is_visible_toggle_other _ _ _ hc]
  · show is_visible (cols.foldl toggle initColumnVisibility) col = true
    rw [is_visible_foldl_not_mem cols initColumnVisibility col h]
    rfl

/-- Witness for column_visibility_toggle: double-toggling the F1 column
restores the DAF column, and a column outside the toggled sequence stays
visible. -/
theorem column_visibility_toggle_witness :
    is_visible (toggle (toggle initColumnVisibility "F1") "F1") "DAF" =
      is_visible initColumnVisibility "DAF" ∧
    is_visible (applyToggles ["DAF", "Model"]) "F1" = true :=
  column_visibility_toggle initColumnVisibility "F1" "DAF" ["DAF", "Model"]
    (by decide)

/-- C7: for every discovery-set name, resolve_best on the empty record
sequence, or on a sequence in which no record has a defined projection
with a present finite F1, returns the explicit empty outcome none rather
than an error. -/
theorem resolve_best_empty_outcome (records : List ModelRecord)
    (s : DiscoverySet)
    (h : ∀ r ∈ records, ∀ b, project r s = some b →
      ∀ q : ℚ, b.F1 ≠ some (MetricVal.num q)) :
    resolve_best records s = none ∧ resolve_best [] s = none := by
  constructor
  · have hc : candidates records s = [] := by
      unfold candidates
      rw [List.filterMap_eq_nil_iff]
      intro r hr
      cases hp : project r s with
      | none => simp [candidate, hp]
      | some b =>
        cases hF : b.F1 with
        | none => simp [candidate, hp, candidateOfBundle, hF]
        | some v =>
          cases v with
          | num q => exact absurd hF (h r hr b hp q)
          | nonFinite => simp [candidate, hp, candidateOfBundle, hF]
    show pickBest none (candidates records s) = none
    rw [hc]
    rfl
  · rfl

/-- Witness for resolve_best_empty_outcome: a record without metrics has
no usable projection for full_test_set. -/
theorem resolve_best_empty_outcome_witness :
    resolve_best [recNoMetrics] DiscoverySet.full_test_set = none ∧
    resolve_best [] DiscoverySet.full_test_set = none := by
  apply resolve_best_empty_outcome
  intro r hr b hp q
  rw [List.mem_singleton] at hr
  subst hr
  have hnone : project recNoMetrics DiscoverySet.full_test_set = none := rfl
  rw [hnone] at hp
  cases hp

/-- A raw record presenting every required field with its declared kind
except model_version, plus an optional field. -/
def rawNoModelVersion : List (String × FieldKind) :=
  (requiredMetadataFieldKinds.filter
    (fun fk => decide (fk.1 ≠ "model_version"))) ++ [("model_key", FieldKind.str)]

/-- C8, counterexample: a raw record presenting every other required field
with its declared kind but omitting model_version fails the required-field
check, so model_version is not optional in the schema. -/
theorem model_version_omitted_fails :
    validateRequired rawNoModelVersion = false ∧
    ("model_version", FieldKind.str) ∈ requiredMetadataFieldKinds := by
  constructor
  · decide
  · decide

/-- C8, amended: model_version is a required string field of the schema: a
raw record not presenting it as a string fails validation, however the
rest of the record looks; model_key remains optional. -/
theorem model_version_required (record : List (String × FieldKind))
    (h : ("model_version", FieldKind.str) ∉ record) :
    validateRequired record = false ∧
    "model_key" ∉ requiredMetadataFieldKinds.map Prod.fst := by
  constructor
  · cases hv : validateRequired record with
    | false => rfl
    | true => exact absurd (validateRequired_mem record _ (by decide) hv) h
  · decide

/-- Witness for model_version_required at the concrete raw record lacking
model_version. -/
theorem model_version_required_witness :
    validateRequired rawNoModelVersion = false ∧
    "model_key" ∉ requiredMetadataFieldKinds.map Prod.fst :=
  model_version_required rawNoModelVersion (by decide)

/-- C9: matbench_discovery_version, date_added and date_published are
required string fields of the schema: each is declared with kind str among
the required fields, and a raw record lacking it (in particular, not
presenting it as a string) fails validation. -/
theorem release_and_date_fields_required (record : List (String × FieldKind))
    (f : String)
    (hf : f = "matbench_discovery_version" ∨ f = "date_added" ∨
      f = "date_published")
    (h : (f, FieldKind.str) ∉ record) :
    validateRequired record = false ∧
    (f, FieldKind.str) ∈ requiredMetadataFieldKinds := by
  have hfk : (f, FieldKind.str) ∈ requiredMetadataFieldKinds := by
    rcases hf with rfl | rfl | rfl <;> decide
  refine ⟨?_, hfk⟩
  cases hv : validateRequired record with
  | false => rfl
  | true => exact absurd (validateRequired_mem record _ hfk hv) h

/-- A raw record presenting every required field with its declared kind
except date_added. -/
def rawNoDateAdded : List (String × FieldKind) :=
  requiredMetadataFieldKinds.filter (fun fk => decide (fk.1 ≠ "date_added"))

/-- Witness for release_and_date_fields_required at the concrete raw
record lacking date_added. -/
theorem release_and_date_fields_required_witness :
    validateRequired rawNoDateAdded = false ∧
    ("date_added", FieldKind.str) ∈ requiredMetadataFieldKinds :=
  release_and_date_fields_required rawNoDateAdded "date_added"
    (Or.inr (Or.inl rfl)) (by decide)

/-- C10, counterexample: with a record whose unique_prototypes bundle
carries F1 = 1 and DAF = 10 the best-model summary is rendered with both
values, yet F1 = 1 violates 0 < F1 < 1 and DAF = 10 violates
0 < DAF < 10: the strict bounds asserted by the repository's test are a
property of the shipped data, not an invariant of the resolver. -/
theorem best_summary_bounds_violation :
    resolve_best [recEdge] DiscoverySet.unique_prototypes =
      some ⟨recEdge, 1, some (MetricVal.num 10)⟩ ∧
    ¬((1 : ℚ) < 1) ∧ ¬((10 : ℚ) < 10) := by
  refine ⟨by decide, by decide, by decide⟩

/-- C10, amended: whenever the best-model summary is rendered with both an
F1 and a finite DAF, and every usable input bundle satisfies the strict
bounds 0 < F1 < 1 and 0 < DAF < 10 (as the repository's test asserts of
its dataset), the rendered values satisfy those bounds: the resolver
preserves the bounds but does not itself enforce them. -/
theorem best_summary_bounds_conditional (records : List ModelRecord)
    (s : DiscoverySet) (res : BestResult) (d : ℚ)
    (h : resolve_best records s = some res)
    (hd : res.DAF = some (MetricVal.num d))
    (hF : ∀ c ∈ candidates records s, 0 < c.F1 ∧ c.F1 < 1)
    (hD : ∀ c ∈ candidates records s, ∀ q : ℚ,
      c.DAF = some (MetricVal.num q) → 0 < q ∧ q < 10) :
    0 < res.F1 ∧ res.F1 < 1 ∧ 0 < d ∧ d < 10 := by
  have hmem : res ∈ candidates records s := pickBest_mem _ res h
  obtain ⟨h1, h2⟩ := hF res hmem
  obtain ⟨h3, h4⟩ := hD res hmem d hd
  exact ⟨h1, h2, h3, h4⟩

/-- Witness for best_summary_bounds_conditional: a single in-range record
with F1 = 0.6 and DAF = 2 yields in-range summary values. -/
theorem best_summary_bounds_conditional_witness :
    0 < mkRat 3 5 ∧ mkRat 3 5 < 1 ∧ 0 < (2 : ℚ) ∧ (2 : ℚ) < 10 := by
  have hcand : candidates [recLow] DiscoverySet.unique_prototypes =
      [⟨recLow, mkRat 3 5, some (MetricVal.num 2)⟩] := rfl
  refine best_summary_bounds_conditional [recLow]
    DiscoverySet.unique_prototypes
    ⟨recLow, mkRat 3 5, some (MetricVal.num 2)⟩ 2 (by decide) rfl ?_ ?_
  · rw [hcand]
    intro c hc
    rw [List.mem_singleton] at hc
    subst hc
    constructor <;> decide
  · rw [hcand]
    intro c hc q hq
    rw [List.mem_singleton] at hc
    subst hc
    have hq2 : some (MetricVal.num (2 : ℚ)) = some (MetricVal.num q) := hq
    injection hq2 with hq2
    injection hq2 with hq2
    rw [← hq2]
    constructor <;> decide

end MBD
